import Mathlib

/-!
Verification development for the kala-vastralya-ledger-book repository.

The backend is an Express server over a single SQLite file (`src/unnamed/part_001`,
first revision, lines 1-876; a second, earlier revision of the same server follows
the separator in that file but the claims under study cite the first revision).
The frontend pages (`src/src/pages/NewSale.tsx`, `src/src/pages/SalesReport.tsx`,
`src/unnamed/part_002` - a revision of the NewSale page) call it over HTTP+JSON.

Shallow embedding conventions:
- The SQLite database is a record of lists (`DB`), one list per table, in rowid
  (insertion) order, plus the AUTOINCREMENT counters.
- REAL money columns are modelled as `Int`: every claim under study concerns
  values (whole rupees) on which JS float arithmetic is exact.
- JSON bodies are records with `Option` fields; `none` models an absent field
  (JS `undefined` / not-an-array for list fields).  JS truthiness of strings
  (`!s` is true for `undefined` and `""`) is `strTruthy`.
- Request handlers are functions `DB -> request -> DB x Except Nat resp`;
  `.error n` is the HTTP error status the handler sends, with the returned `DB`
  being the (rolled-back or untouched) store.  `better-sqlite3` transactions
  roll back whole on a thrown error, so an error always carries the input `DB`.
- The UNIQUE constraint on `sales.number` is part of the model: an INSERT that
  would duplicate a number throws, the transaction rolls back, and the handler
  answers 500.
- `sale_items.id` (never consulted by any handler logic) is omitted from the
  `SaleItem` record.
-/

/-- A row of `categories` or `manufacturers`: `(id INTEGER PRIMARY KEY, name TEXT UNIQUE)`. -/
structure LookupRow where
  id : Nat
  name : String
deriving Repr, DecidableEq

/-- A row of `products`. -/
structure Product where
  id : Nat
  barcode : String
  category_id : Nat
  manufacturer_id : Nat
  quantity : Int
  cost_price : Int
  sale_price : Int
deriving Repr, DecidableEq

/-- A row of `sales`.  `customer_name` is stored non-null by the creation
handler (it defaults to "Walk In Customer"); the nullable TEXT columns are
`Option String`. -/
structure SaleRow where
  id : Nat
  type_ : String
  number : String
  customer_name : String
  mobile : Option String
  payment_mode : Option String
  remarks : Option String
  date : String
  total_amount : Int
  total_discount : Int
  final_amount : Int
deriving Repr, DecidableEq

/-- A row of `sale_items` (the AUTOINCREMENT `id`, unused by handler logic, is omitted). -/
structure SaleItem where
  sale_id : Nat
  product_id : Nat
  category_name : String
  sale_price : Int
  quantity : Int
  item_final_price : Int
deriving Repr, DecidableEq

/-- The SQLite file: one list per table in rowid order, plus AUTOINCREMENT counters. -/
structure DB where
  categories : List LookupRow
  manufacturers : List LookupRow
  products : List Product
  sales : List SaleRow
  sale_items : List SaleItem
  nextCategoryId : Nat
  nextManufacturerId : Nat
  nextProductId : Nat
  nextSaleId : Nat
deriving Repr, DecidableEq

/-- JS truthiness of an optional string field: `undefined` and `""` are falsy. -/
def strTruthy : Option String → Bool
  | none => false
  | some s => !s.isEmpty

/-- JS `v || dflt` for a string field. -/
def jsStrOr (v : Option String) (dflt : String) : String :=
  match v with
  | none => dflt
  | some s => if s.isEmpty then dflt else s

/-- JS `v || null` for a string field. -/
def jsStrOrNull (v : Option String) : Option String :=
  match v with
  | none => none
  | some s => if s.isEmpty then none else some s

/-- Decidable equality for `Except`, used to evaluate handler results on
concrete inputs. -/
instance {e a : Type} [DecidableEq e] [DecidableEq a] : DecidableEq (Except e a) := fun x y =>
  match x, y with
  | .error v, .error w =>
    if h : v = w then .isTrue (by rw [h]) else .isFalse (fun hc => h (Except.error.inj hc))
  | .error _, .ok _ => .isFalse (fun hc => Except.noConfusion hc)
  | .ok _, .error _ => .isFalse (fun hc => Except.noConfusion hc)
  | .ok v, .ok w =>
    if h : v = w then .isTrue (by rw [h]) else .isFalse (fun hc => h (Except.ok.inj hc))

/-- Fuel-driven digit emitter (`fuel > n` always holds at the call sites):
emits the decimal digits of `n`, most significant first, in front of `acc`. -/
def natDigitsCore (fuel n : Nat) (acc : List Char) : List Char :=
  match fuel with
  | 0 => acc
  | fuel + 1 =>
    if n < 10 then Char.ofNat (48 + n) :: acc
    else natDigitsCore fuel (n / 10) (Char.ofNat (48 + n % 10) :: acc)

/-- The decimal digit characters of `n`, most significant first: JS `String(n)`
for a non-negative integer. -/
def natDigits (n : Nat) : List Char :=
  natDigitsCore (n + 1) n []

/-- The number of decimal digits of `n` (proof-side measure). -/
def numDigits (n : Nat) : Nat :=
  if h : n < 10 then 1 else numDigits (n / 10) + 1
decreasing_by exact Nat.div_lt_self (by omega) (by omega)

/-- JS `String.prototype.padStart(4, '0')` on a character list. -/
def padStart4 (cs : List Char) : List Char :=
  List.replicate (4 - cs.length) '0' ++ cs

/-- Splitting a character list at a separator character: JS `String.prototype.split`
restricted to a single-character separator. -/
def splitOnChar (c : Char) : List Char → List (List Char)
  | [] => [[]]
  | x :: xs =>
    match splitOnChar c xs with
    | [] => [[x]]
    | h :: t => if x == c then [] :: h :: t else (x :: h) :: t

/-- JS `parseInt(s, 10)`: parse the leading run of decimal digits; `none` models
the `NaN` result when there is no leading digit. -/
def parseIntLeading (cs : List Char) : Option Nat :=
  let ds := cs.takeWhile Char.isDigit
  if ds.isEmpty then none
  else some (ds.foldl (fun a c => a * 10 + (c.toNat - 48)) 0)

/-- `parseInt(number.split('-')[1], 10)` from the POST /api/sales handler:
`none` models `NaN` (fewer than two dash-separated parts, or a non-numeric part). -/
def numericPart (s : String) : Option Nat :=
  match splitOnChar '-' s.data with
  | _ :: p :: _ => parseIntLeading p
  | _ => none

/-- `` `${prefix}-${String(nextNumber).padStart(4, '0')}` `` — `none` models the
`NaN` propagated from an unparseable previous number (JS would render "0NaN"). -/
def mkSaleNumber (pfx : String) (n : Option Nat) : String :=
  String.mk (pfx.data ++ '-' :: padStart4 (match n with
    | some k => natDigits k
    | none => ['N', 'a', 'N']))

/-- The number-generation block of POST /api/sales (part_001 lines 374-386):
take the most recent sale of the same type (`ORDER BY id DESC LIMIT 1`; rows are
in id order), parse the part after the dash and add one, else start at 1. -/
def genSaleNumber (db : DB) (ty : String) : String :=
  let pfx := if ty == "bill" then "BILL" else "EST"
  let lastSale := (db.sales.filter (fun s => s.type_ == ty)).getLast?
  let nextNumber : Option Nat :=
    match lastSale with
    | none => some 1
    | some ls => (numericPart ls.number).map (· + 1)
  mkSaleNumber pfx nextNumber

/-- `UPDATE products SET quantity = quantity - ? WHERE id = ?`. -/
def decrementQuantity (ps : List Product) (pid : Nat) (q : Int) : List Product :=
  ps.map (fun p => if p.id == pid then { p with quantity := p.quantity - q } else p)

/-- `UPDATE products SET quantity = quantity + ? WHERE id = ?`. -/
def incrementQuantity (ps : List Product) (pid : Nat) (q : Int) : List Product :=
  ps.map (fun p => if p.id == pid then { p with quantity := p.quantity + q } else p)

/-- Total quantity, over a list of items, of the items referencing product `k`
(`pid`/`qty` project the product id and the quantity out of an item). -/
def qtySum {α : Type} (pid : α → Nat) (qty : α → Int) (its : List α) (k : Nat) : Int :=
  (List.map qty (its.filter (fun i => pid i == k))).sum

/-- One line item of a sale-creation or sale-edit JSON body. -/
structure SaleItemReq where
  product_id : Nat
  category_name : String
  sale_price : Int
  quantity : Int
  item_final_price : Int
deriving Repr, DecidableEq

/-- The `sale_items` row inserted for request item `i` of sale `sid`. -/
def mkSaleItem (sid : Nat) (i : SaleItemReq) : SaleItem :=
  { sale_id := sid, product_id := i.product_id, category_name := i.category_name,
    sale_price := i.sale_price, quantity := i.quantity,
    item_final_price := i.item_final_price }

/-- `qtySum` over a request item list. -/
def itemsQty (its : List SaleItemReq) (k : Nat) : Int :=
  qtySum (fun i => i.product_id) (fun i => i.quantity) its k

/-- `qtySum` over stored `sale_items` rows. -/
def rowsQty (its : List SaleItem) (k : Nat) : Int :=
  qtySum (fun i => i.product_id) (fun i => i.quantity) its k

/-- The JSON body of POST /api/sales.  `items = none` models a missing or
non-array `items` field.  The three totals are always-present numbers (the
claims under study never involve requests omitting them). -/
structure CreateSaleReq where
  type_ : Option String
  customer_name : Option String
  mobile : Option String
  payment_mode : Option String
  remarks : Option String
  total_amount : Int
  total_discount : Option Int
  final_amount : Int
  items : Option (List SaleItemReq)
deriving Repr, DecidableEq

/-- The 201 response body of POST /api/sales. -/
structure SaleResp where
  id : Nat
  number : String
  date : String
deriving Repr, DecidableEq

/-- POST /api/sales (part_001 lines 352-449).  `date` is the handler's
`getCurrentDateIST()` value ("yyyy-MM-dd HH:mm:ss"), passed as a parameter.
Validation: `!type || !items || !Array.isArray(items) || items.length === 0`
answers 400.  The transaction generates the number, inserts the sale row
(customer name defaulted, empty optionals stored NULL, `total_discount || 0`),
then for each item inserts a `sale_items` row and decrements the referenced
product's quantity - with no stock-availability check.  An INSERT that would
duplicate `sales.number` (UNIQUE) throws; the transaction rolls back and the
handler answers 500. -/
def createSale (db : DB) (date : String) (req : CreateSaleReq) : DB × Except Nat SaleResp :=
  if !strTruthy req.type_ || req.items.isNone || (req.items.getD []).isEmpty then
    (db, .error 400)
  else
    let items := req.items.getD []
    let ty := req.type_.getD ""
    let number := genSaleNumber db ty
    if number ∈ db.sales.map (fun s => s.number) then
      (db, .error 500)
    else
      let sale : SaleRow :=
        { id := db.nextSaleId, type_ := ty, number := number,
          customer_name := jsStrOr req.customer_name "Walk In Customer",
          mobile := jsStrOrNull req.mobile,
          payment_mode := jsStrOrNull req.payment_mode,
          remarks := jsStrOrNull req.remarks,
          date := date,
          total_amount := req.total_amount,
          total_discount := req.total_discount.getD 0,
          final_amount := req.final_amount }
      ({ db with
          sales := db.sales ++ [sale],
          sale_items := db.sale_items ++ items.map (mkSaleItem db.nextSaleId),
          products := items.foldl
            (fun ps i => decrementQuantity ps i.product_id i.quantity) db.products,
          nextSaleId := db.nextSaleId + 1 },
        .ok { id := db.nextSaleId, number := number, date := date })

/-- The store right after `initDb()` on a fresh database file (part_001 lines
29-153): the four seeded categories, manufacturers and sample products, no
sales. -/
def initDB : DB :=
  { categories :=
      [⟨1, "Sarees"⟩, ⟨2, "Shirts"⟩, ⟨3, "Pants"⟩, ⟨4, "Coord Set"⟩],
    manufacturers :=
      [⟨1, "XYZ Clothing"⟩, ⟨2, "ABC Manufacturer"⟩, ⟨3, "JKL Textiles"⟩,
       ⟨4, "Geeta tailers"⟩],
    products :=
      [{ id := 1, barcode := "12345678", category_id := 1, manufacturer_id := 1,
         quantity := 31, cost_price := 1000, sale_price := 2000 },
       { id := 2, barcode := "87654321", category_id := 4, manufacturer_id := 2,
         quantity := 20, cost_price := 3500, sale_price := 5000 },
       { id := 3, barcode := "10101010", category_id := 2, manufacturer_id := 3,
         quantity := 24, cost_price := 150, sale_price := 300 },
       { id := 4, barcode := "10000000", category_id := 3, manufacturer_id := 4,
         quantity := 32, cost_price := 500, sale_price := 860 }],
    sales := [],
    sale_items := [],
    nextCategoryId := 5,
    nextManufacturerId := 5,
    nextProductId := 5,
    nextSaleId := 1 }

/-- The JSON body of PUT /api/sales/:id.  `items = none` models a missing or
non-array `items` field. -/
structure UpdateSaleReq where
  total_amount : Int
  total_discount : Option Int
  final_amount : Int
  items : Option (List SaleItemReq)
deriving Repr, DecidableEq

/-- PUT /api/sales/:id (part_001 lines 536-622).  Validation:
`!items || !Array.isArray(items)` answers 400 (an empty array passes - it is
truthy in JS and there is no length check here).  The transaction looks the
sale up (a missing sale throws "Sale not found", the transaction rolls back
and the handler answers 404), adds every original item's quantity back to its
product, overwrites the three totals of the sale row, deletes the original
items, then inserts the replacement items and decrements each one's product
quantity.  On success the handler answers `{ id, message }`; the model returns
the id. -/
def updateSale (db : DB) (id : Nat) (req : UpdateSaleReq) : DB × Except Nat Nat :=
  match req.items with
  | none => (db, .error 400)
  | some items =>
    match db.sales.find? (fun s => s.id == id) with
    | none => (db, .error 404)
    | some _ =>
      let originalItems := db.sale_items.filter (fun i => i.sale_id == id)
      let restoredProducts := originalItems.foldl
        (fun ps i => incrementQuantity ps i.product_id i.quantity) db.products
      ({ db with
          sales := db.sales.map (fun s =>
            if s.id == id then
              { s with total_amount := req.total_amount,
                       total_discount := req.total_discount.getD 0,
                       final_amount := req.final_amount }
            else s),
          sale_items := db.sale_items.filter (fun i => !(i.sale_id == id))
            ++ items.map (mkSaleItem id),
          products := items.foldl
            (fun ps i => decrementQuantity ps i.product_id i.quantity)
            restoredProducts },
        .ok id)

/-- Modelled from the spec: the DELETE /api/sales/:id server handler and its
client wrapper `deleteSaleApi` are absent from src/ (SalesReport.tsx imports
`deleteSaleApi` from `@/lib/api` and calls it in `deleteSaleMutation`, but
`src/src/lib/api.ts` does not define it and neither server revision in
`src/unnamed/part_001` has a delete route - spec 4.3 marks sale deletion
"later revision only").  Spec 4.3: "Removes the sale and its items, restoring
product quantities for every removed item"; spec 7: an unknown sale id answers
a distinct not-found status. -/
def deleteSale (db : DB) (id : Nat) : DB × Except Nat Unit :=
  match db.sales.find? (fun s => s.id == id) with
  | none => (db, .error 404)
  | some _ =>
    let its := db.sale_items.filter (fun i => i.sale_id == id)
    ({ db with
        sales := db.sales.filter (fun s => !(s.id == id)),
        sale_items := db.sale_items.filter (fun i => !(i.sale_id == id)),
        products := its.foldl
          (fun ps i => incrementQuantity ps i.product_id i.quantity) db.products },
      .ok ())

/-- The query string of GET /api/sales. -/
structure SalesQuery where
  date : Option String
  startDate : Option String
  endDate : Option String
  type_ : Option String
  search : Option String
deriving Repr, DecidableEq

/-- SQLite `date(s)` on the strings this system stores ("yyyy-MM-dd HH:mm:ss"
from `getCurrentDateIST()`, "yyyy-MM-dd" from the client's date inputs): the
first ten characters. -/
def sqlDate (s : String) : String :=
  s.take 10

/-- ASCII lower-casing, the case folding SQLite's default LIKE applies. -/
def asciiLower (c : Char) : Char :=
  if 'A' ≤ c && c ≤ 'Z' then Char.ofNat (c.toNat + 32) else c

/-- Does `pat` start `hay`? -/
def leadsWith : List Char → List Char → Bool
  | [], _ => true
  | _ :: _, [] => false
  | a :: as, b :: bs => a == b && leadsWith as bs

/-- Does `pat` occur inside `hay`? -/
def containsChars (pat : List Char) : List Char → Bool
  | [] => pat.isEmpty
  | b :: bs => leadsWith pat (b :: bs) || containsChars pat bs

/-- SQLite `hay LIKE '%' || pat || '%'` (default ASCII-case-insensitive;
wildcard characters inside `pat` are outside the modelled domain). -/
def likeContains (hay pat : String) : Bool :=
  containsChars (pat.data.map asciiLower) (hay.data.map asciiLower)

/-- `date(s.date) = date(?)`, or `date(s.date) BETWEEN date(?) AND date(?)`
when only the range pair is given (TEXT comparison is lexicographic, which on
"yyyy-MM-dd" is chronological); no condition otherwise (part_001 lines 466-473). -/
def dateFilterOk (q : SalesQuery) (s : SaleRow) : Bool :=
  if strTruthy q.date then
    sqlDate s.date == sqlDate (q.date.getD "")
  else if strTruthy q.startDate && strTruthy q.endDate then
    decide (sqlDate (q.startDate.getD "") ≤ sqlDate s.date)
      && decide (sqlDate s.date ≤ sqlDate (q.endDate.getD ""))
  else true

/-- `type && (type === 'bill' || type === 'estimate')` guards `s.type = ?`
(part_001 lines 476-479). -/
def typeFilterOk (q : SalesQuery) (s : SaleRow) : Bool :=
  if q.type_ == some "bill" || q.type_ == some "estimate" then
    s.type_ == q.type_.getD ""
  else true

/-- `search` guards `(s.customer_name LIKE ? OR s.mobile LIKE ?)`; a NULL
mobile makes its LIKE non-true (part_001 lines 482-485). -/
def searchFilterOk (q : SalesQuery) (s : SaleRow) : Bool :=
  if strTruthy q.search then
    likeContains s.customer_name (q.search.getD "")
      || (match s.mobile with
          | some m => likeContains m (q.search.getD "")
          | none => false)
  else true

/-- GET /api/sales (part_001 lines 452-497): the sales WHERE-filtered by the
conjunction of the active conditions, ORDER BY date DESC. -/
def getSales (q : SalesQuery) (db : DB) : List SaleRow :=
  (db.sales.filter (fun s => dateFilterOk q s && typeFilterOk q s && searchFilterOk q s)).mergeSort
    (fun a b => decide (b.date ≤ a.date))

/-- A parsed row of the uploaded Excel sheet, as produced by
`xlsx.utils.sheet_to_json`: a key is present on the JS row object only when
the cell is non-empty, so each column is an `Option`.  Numeric cells are the
`Int` values the claims exercise. -/
structure ImportRow where
  barcode : Option String
  category : Option String
  manufacturer : Option String
  quantity : Option Int
  cost_price : Option Int
  sale_price : Option Int
deriving Repr, DecidableEq

/-- The get-or-create block for `categories` (part_001 lines 662-671). -/
def getOrCreateCategory (db : DB) (name : String) : DB × Nat :=
  match db.categories.find? (fun c => c.name == name) with
  | some c => (db, c.id)
  | none =>
    ({ db with categories := db.categories ++ [⟨db.nextCategoryId, name⟩],
               nextCategoryId := db.nextCategoryId + 1 },
     db.nextCategoryId)

/-- The get-or-create block for `manufacturers` (part_001 lines 673-682). -/
def getOrCreateManufacturer (db : DB) (name : String) : DB × Nat :=
  match db.manufacturers.find? (fun m => m.name == name) with
  | some m => (db, m.id)
  | none =>
    ({ db with manufacturers := db.manufacturers ++ [⟨db.nextManufacturerId, name⟩],
               nextManufacturerId := db.nextManufacturerId + 1 },
     db.nextManufacturerId)

/-- The per-row body of the import loop (part_001 lines 661-716), including
where it can throw: better-sqlite3 refuses to bind an `undefined` value, so a
row whose category / manufacturer / barcode / quantity / cost_price /
sale_price cell is missing throws at the statement binding it and is caught by
the per-row catch.  The throw does NOT undo the earlier statements of the same
row (the catch is inside the transaction), so a failing row may still have
created its category or manufacturer.  Returns the store after the row and
whether the row succeeded. -/
def processRow (db : DB) (r : ImportRow) : DB × Bool :=
  match r.category with
  | none => (db, false)
  | some cname =>
    let step1 := getOrCreateCategory db cname
    match r.manufacturer with
    | none => (step1.1, false)
    | some mname =>
      let step2 := getOrCreateManufacturer step1.1 mname
      match r.barcode with
      | none => (step2.1, false)
      | some bc =>
        match r.quantity, r.cost_price, r.sale_price with
        | some q, some cp, some sp =>
          match step2.1.products.find? (fun p => p.barcode == bc) with
          | some p0 =>
            ({ step2.1 with products := step2.1.products.map (fun p =>
                if p.id == p0.id then
                  { p with category_id := step1.2, manufacturer_id := step2.2,
                           quantity := q, cost_price := cp, sale_price := sp }
                else p) },
             true)
          | none =>
            ({ step2.1 with
                products := step2.1.products ++
                  [{ id := step2.1.nextProductId, barcode := bc,
                     category_id := step1.2, manufacturer_id := step2.2,
                     quantity := q, cost_price := cp, sale_price := sp }],
                nextProductId := step2.1.nextProductId + 1 },
             true)
        | _, _, _ => (step2.1, false)

/-- Are all six required cells present on a row?  `processRow` succeeds exactly
on such rows; the required-columns validation checks this on the first row. -/
def rowComplete (r : ImportRow) : Bool :=
  r.barcode.isSome && r.category.isSome && r.manufacturer.isSome &&
  r.quantity.isSome && r.cost_price.isSome && r.sale_price.isSome

/-- The `data.forEach((row, index) => ...)` loop of the import transaction
(part_001 lines 656-723): each row is processed in order; a successful row
bumps `imported`, a failing row appends `index + 1` to the error report, and
processing continues either way. -/
def importRows (db : DB) (rows : List ImportRow) (idx : Nat) (imported : Nat)
    (errors : List Nat) : DB × Nat × List Nat :=
  match rows with
  | [] => (db, imported, errors)
  | r :: rest =>
    let step := processRow db r
    if step.2 then importRows step.1 rest (idx + 1) (imported + 1) errors
    else importRows step.1 rest (idx + 1) imported (errors ++ [idx + 1])

/-- POST /api/import/products (part_001 lines 629-745), from the parsed sheet
onward: an empty sheet answers 400; a first row missing a required column
answers 400 (`Object.keys(data[0])` - only the first row is checked); otherwise
the transaction processes every row and the handler reports the imported count
and the per-row error list. -/
def importProducts (db : DB) (rows : List ImportRow) : DB × Except Nat (Nat × List Nat) :=
  match rows with
  | [] => (db, .error 400)
  | r0 :: _ =>
    if !rowComplete r0 then (db, .error 400)
    else
      let result := importRows db rows 0 0 []
      (result.1, .ok (result.2.1, result.2.2))

/-- `handleDiscountChange` of the NewSale page (part_002 lines 280-284):
entering a discount sets `finalAmount := totalAmount - value`.  Returns
(discount, finalAmount). -/
def handleDiscountChange (totalAmount value : Int) : Int × Int :=
  (value, totalAmount - value)

/-- `handleFinalAmountChange` of the NewSale page (part_002 lines 287-292):
entering a To-Pay value keeps it as `finalAmount` and sets the discount to
`totalAmount - value` clamped at zero - so a value above the total leaves
`finalAmount` inconsistent with `totalAmount - discount`.  Returns
(finalAmount, discount). -/
def handleFinalAmountChange (totalAmount value : Int) : Int × Int :=
  (value, if totalAmount - value ≥ 0 then totalAmount - value else 0)

theorem qtySum_nil {α : Type} (pid : α → Nat) (qty : α → Int) (k : Nat) :
    qtySum pid qty [] k = 0 := rfl

theorem qtySum_cons {α : Type} (pid : α → Nat) (qty : α → Int) (i : α)
    (its : List α) (k : Nat) :
    qtySum pid qty (i :: its) k
      = (if pid i == k then qty i else 0) + qtySum pid qty its k := by
  by_cases h : pid i == k
  · simp [qtySum, List.filter_cons, h]
  · simp [qtySum, List.filter_cons, h]

theorem foldl_decrementQuantity {α : Type} (pid : α → Nat) (qty : α → Int)
    (its : List α) (ps : List Product) :
    its.foldl (fun acc i => decrementQuantity acc (pid i) (qty i)) ps
      = ps.map (fun p => { p with quantity := p.quantity - qtySum pid qty its p.id }) := by
  induction its generalizing ps with
  | nil =>
    simp only [List.foldl_nil, qtySum_nil]
    have : (fun (p : Product) => { p with quantity := p.quantity - 0 }) = fun p => p := by
      funext p
      simp
    rw [this, List.map_id']
  | cons i its ih =>
    rw [List.foldl_cons, ih, decrementQuantity, List.map_map]
    apply List.map_congr_left
    intro p _
    simp only [Function.comp]
    by_cases h : p.id == pid i
    · have he : pid i == p.id := by
        rw [beq_iff_eq] at h ⊢
        omega
      simp only [if_pos h, qtySum_cons, he, if_pos]
      simp only [Product.mk.injEq, true_and, and_true]
      omega
    · have he : (pid i == p.id) = false := by
        rw [beq_iff_eq] at h
        rw [beq_eq_false_iff_ne]
        omega
      simp only [if_neg h, qtySum_cons, he, if_false, Bool.false_eq_true, zero_add]

theorem foldl_incrementQuantity {α : Type} (pid : α → Nat) (qty : α → Int)
    (its : List α) (ps : List Product) :
    its.foldl (fun acc i => incrementQuantity acc (pid i) (qty i)) ps
      = ps.map (fun p => { p with quantity := p.quantity + qtySum pid qty its p.id }) := by
  induction its generalizing ps with
  | nil =>
    simp only [List.foldl_nil, qtySum_nil]
    have : (fun (p : Product) => { p with quantity := p.quantity + 0 }) = fun p => p := by
      funext p
      simp
    rw [this, List.map_id']
  | cons i its ih =>
    rw [List.foldl_cons, ih, incrementQuantity, List.map_map]
    apply List.map_congr_left
    intro p _
    simp only [Function.comp]
    by_cases h : p.id == pid i
    · have he : pid i == p.id := by
        rw [beq_iff_eq] at h ⊢
        omega
      simp only [if_pos h, qtySum_cons, he, if_pos]
      simp only [Product.mk.injEq, true_and, and_true]
      omega
    · have he : (pid i == p.id) = false := by
        rw [beq_iff_eq] at h
        rw [beq_eq_false_iff_ne]
        omega
      simp only [if_neg h, qtySum_cons, he, if_false, Bool.false_eq_true, zero_add]

/-- The `sales` row a successful POST /api/sales inserts (the VALUES of the
INSERT at part_001 lines 390-406). -/
def newSaleRow (db : DB) (date : String) (req : CreateSaleReq) : SaleRow :=
  { id := db.nextSaleId,
    type_ := req.type_.getD "",
    number := genSaleNumber db (req.type_.getD ""),
    customer_name := jsStrOr req.customer_name "Walk In Customer",
    mobile := jsStrOrNull req.mobile,
    payment_mode := jsStrOrNull req.payment_mode,
    remarks := jsStrOrNull req.remarks,
    date := date,
    total_amount := req.total_amount,
    total_discount := req.total_discount.getD 0,
    final_amount := req.final_amount }

/-- The exact store and response a successful POST /api/sales produces. -/
theorem createSale_ok_shape (db : DB) (date : String) (req : CreateSaleReq)
    (l : List SaleItemReq)
    (ht : strTruthy req.type_ = true) (hi : req.items = some l) (hl : l ≠ [])
    (hn : genSaleNumber db (req.type_.getD "") ∉ db.sales.map (fun s => s.number)) :
    createSale db date req =
      ({ db with
          sales := db.sales ++ [newSaleRow db date req],
          sale_items := db.sale_items ++ l.map (mkSaleItem db.nextSaleId),
          products := db.products.map (fun p =>
            { p with quantity := p.quantity
                - qtySum (fun i => i.product_id) (fun i => i.quantity) l p.id }),
          nextSaleId := db.nextSaleId + 1 },
       .ok { id := db.nextSaleId, number := genSaleNumber db (req.type_.getD ""),
             date := date }) := by
  unfold createSale
  rw [hi]
  have hc : (!strTruthy req.type_ || (some l).isNone || ((some l).getD []).isEmpty) = false := by
    simp [ht, hl]
  rw [hc]
  simp only [Bool.false_eq_true, if_false, if_neg hn, Option.getD_some,
    foldl_decrementQuantity]
  rfl

/-- An accepted POST /api/sales passed its validation and its generated number
was fresh. -/
theorem createSale_ok_conditions (db : DB) (date : String) (req : CreateSaleReq)
    (db2 : DB) (resp : SaleResp) (h : createSale db date req = (db2, .ok resp)) :
    strTruthy req.type_ = true ∧ (∃ l, req.items = some l ∧ l ≠ []) ∧
      genSaleNumber db (req.type_.getD "") ∉ db.sales.map (fun s => s.number) := by
  by_cases hv : (!strTruthy req.type_ || req.items.isNone || (req.items.getD []).isEmpty) = true
  · exfalso
    unfold createSale at h
    rw [if_pos hv] at h
    simp at h
  · have hv2 := hv
    rw [Bool.not_eq_true, Bool.or_eq_false_iff, Bool.or_eq_false_iff] at hv2
    obtain ⟨⟨h1, h2⟩, h3⟩ := hv2
    by_cases hm : genSaleNumber db (req.type_.getD "") ∈ db.sales.map (fun s => s.number)
    · exfalso
      unfold createSale at h
      rw [if_neg hv] at h
      simp only [hm, if_true] at h
      simp at h
    · cases hio : req.items with
      | none =>
        rw [hio] at h2
        simp at h2
      | some l =>
        refine ⟨by simpa using h1, ⟨l, rfl, ?_⟩, hm⟩
        rw [hio] at h3
        simpa using h3

/-- C1: for every accepted sale creation, each referenced product's quantity
drops by exactly the total quantity the item list orders for it (first
conjunct), and acceptance needs no stock-availability condition - any
validation-passing request whose generated number is fresh is accepted, with
no hypothesis on the products' current quantities, so the resulting quantity
may be negative (second conjunct; the witness accepts an order of 35 units
against a stock of 31, leaving -4). -/
theorem sale_creation_decrements_each_product :
    (∀ db date req db2 resp, createSale db date req = (db2, .ok resp) →
        db2.products = db.products.map (fun p =>
          { p with quantity := p.quantity - itemsQty (req.items.getD []) p.id })) ∧
    (∀ db date req l, strTruthy req.type_ = true → req.items = some l → l ≠ [] →
        genSaleNumber db (req.type_.getD "") ∉ db.sales.map (fun s => s.number) →
        ∃ db2 resp, createSale db date req = (db2, .ok resp)) := by
  constructor
  · intro db date req db2 resp h
    obtain ⟨ht, ⟨l, hi, hl⟩, hn⟩ := createSale_ok_conditions db date req db2 resp h
    rw [createSale_ok_shape db date req l ht hi hl hn] at h
    injection h with h1 h2
    rw [← h1, hi]
    simp only [Option.getD_some, itemsQty]
  · intro db date req l ht hi hl hn
    exact ⟨_, _, createSale_ok_shape db date req l ht hi hl hn⟩

/-- The concrete creation request the C1 witness sends: 35 units of product 1
("12345678", stock 31 in `initDB`). -/
def c1req : CreateSaleReq :=
  { type_ := some "bill", customer_name := none, mobile := none,
    payment_mode := some "cash", remarks := none, total_amount := 70000,
    total_discount := some 0, final_amount := 70000,
    items := some [{ product_id := 1, category_name := "Sarees",
                     sale_price := 2000, quantity := 35,
                     item_final_price := 70000 }] }

/-- C1 witness: the request is accepted with no stock check and product 1's
stored quantity becomes negative (31 - 35 = -4). -/
theorem sale_creation_decrements_each_product_witness :
    (createSale initDB "2025-01-01 10:00:00" c1req).2.isOk = true ∧
    (createSale initDB "2025-01-01 10:00:00" c1req).1.products.map
      (fun p => p.quantity) = [-4, 20, 24, 32] := by
  obtain ⟨db2, resp, hok⟩ :=
    sale_creation_decrements_each_product.2 initDB "2025-01-01 10:00:00" c1req
      (c1req.items.getD []) (by decide) rfl (by decide) (by decide)
  have hps := sale_creation_decrements_each_product.1 initDB "2025-01-01 10:00:00"
    c1req db2 resp hok
  constructor
  · rw [(show (createSale initDB "2025-01-01 10:00:00" c1req) = (db2, .ok resp) from hok)]
    rfl
  · rw [(show (createSale initDB "2025-01-01 10:00:00" c1req) = (db2, .ok resp) from hok)]
    rw [hps]
    decide

/-- C8: a creation request with a falsy type, a missing or non-array items
field, or an empty item list is rejected with status 400 and the store is
returned unchanged - no sale, sale items or product-quantity change persists. -/
theorem sale_creation_validation_rejects_without_change
    (db : DB) (date : String) (req : CreateSaleReq)
    (h : strTruthy req.type_ = false ∨ req.items = none ∨ req.items = some []) :
    createSale db date req = (db, .error 400) := by
  unfold createSale
  have hc : (!strTruthy req.type_ || req.items.isNone || (req.items.getD []).isEmpty) = true := by
    rcases h with h | h | h
    · simp [h]
    · simp [h]
    · simp [h]
  rw [hc]
  rfl

/-- C8 witness: a request with a present type but an empty item list is
rejected with 400 and the store is exactly the input store. -/
theorem sale_creation_validation_rejects_without_change_witness :
    createSale initDB "2025-01-01 10:00:00"
      { type_ := some "bill", customer_name := none, mobile := none,
        payment_mode := none, remarks := none, total_amount := 0,
        total_discount := none, final_amount := 0, items := some [] }
      = (initDB, .error 400) :=
  sale_creation_validation_rejects_without_change initDB "2025-01-01 10:00:00" _
    (Or.inr (Or.inr rfl))

/-- The exact store a successful PUT /api/sales/:id produces. -/
theorem updateSale_ok_shape (db : DB) (id : Nat) (req : UpdateSaleReq)
    (l : List SaleItemReq) (s0 : SaleRow)
    (hi : req.items = some l)
    (hs : db.sales.find? (fun s => s.id == id) = some s0) :
    updateSale db id req =
      ({ db with
          sales := db.sales.map (fun s =>
            if s.id == id then
              { s with total_amount := req.total_amount,
                       total_discount := req.total_discount.getD 0,
                       final_amount := req.final_amount }
            else s),
          sale_items := db.sale_items.filter (fun i => !(i.sale_id == id))
            ++ l.map (mkSaleItem id),
          products := db.products.map (fun p =>
            { p with quantity := p.quantity
                + rowsQty (db.sale_items.filter (fun i => i.sale_id == id)) p.id
                - itemsQty l p.id }) },
        .ok id) := by
  unfold updateSale
  rw [hi, hs]
  simp only [foldl_incrementQuantity, foldl_decrementQuantity, List.map_map]
  rfl

/-- An accepted PUT /api/sales/:id carried an items array and found its sale. -/
theorem updateSale_ok_conditions (db : DB) (id : Nat) (req : UpdateSaleReq)
    (db2 : DB) (r : Nat) (h : updateSale db id req = (db2, .ok r)) :
    ∃ l s0, req.items = some l ∧ db.sales.find? (fun s => s.id == id) = some s0 := by
  unfold updateSale at h
  cases hio : req.items with
  | none =>
    rw [hio] at h
    simp at h
  | some l =>
    rw [hio] at h
    cases hs : db.sales.find? (fun s => s.id == id) with
    | none =>
      rw [hs] at h
      simp at h
    | some s0 => exact ⟨l, s0, rfl, rfl⟩

/-- C2: for every accepted sale edit, every product's quantity changes by
exactly the total quantity the sale's original stored items gave it minus the
total quantity the replacement item list takes - the restore-then-reapply of
the handler nets out to the old/new delta. -/
theorem sale_edit_nets_old_new_delta (db : DB) (id : Nat) (req : UpdateSaleReq)
    (db2 : DB) (r : Nat) (h : updateSale db id req = (db2, .ok r)) :
    db2.products = db.products.map (fun p =>
      { p with quantity := p.quantity
          + rowsQty (db.sale_items.filter (fun i => i.sale_id == id)) p.id
          - itemsQty (req.items.getD []) p.id }) := by
  obtain ⟨l, s0, hi, hs⟩ := updateSale_ok_conditions db id req db2 r h
  rw [updateSale_ok_shape db id req l s0 hi hs] at h
  injection h with h1 h2
  rw [← h1, hi]
  simp only [Option.getD_some]

/-- C10: an accepted sale edit rewrites only the three totals of the edited
sale row; its type, number, customer name, mobile, payment mode, remarks and
date - and every other sale row - are left exactly as they were. -/
theorem sale_edit_touches_only_totals (db : DB) (id : Nat) (req : UpdateSaleReq)
    (db2 : DB) (r : Nat) (h : updateSale db id req = (db2, .ok r)) :
    db2.sales = db.sales.map (fun s =>
      if s.id == id then
        { s with total_amount := req.total_amount,
                 total_discount := req.total_discount.getD 0,
                 final_amount := req.final_amount }
      else s) := by
  obtain ⟨l, s0, hi, hs⟩ := updateSale_ok_conditions db id req db2 r h
  rw [updateSale_ok_shape db id req l s0 hi hs] at h
  injection h with h1 h2
  rw [← h1]

/-- C7 (amended): a sale-edit request that passes the items validation and
whose id matches no stored sale is answered with the distinct not-found
status 404 and the returned store is exactly the input store - no sale row,
sale item or product quantity changes. -/
theorem sale_edit_unknown_id_not_found (db : DB) (id : Nat) (req : UpdateSaleReq)
    (l : List SaleItemReq) (hi : req.items = some l)
    (hs : db.sales.find? (fun s => s.id == id) = none) :
    updateSale db id req = (db, .error 404) := by
  unfold updateSale
  rw [hi, hs]

/-- C7 counterexample: the claim quantifies over every PUT /api/sales/:id
request with an unknown id, but the handler checks the items field first, so
a request whose body lacks an items array is answered 400, not the not-found
status - even though its id matches no stored sale.  (The store is still
unchanged.) -/
theorem sale_edit_unknown_id_counterexample :
    initDB.sales.find? (fun s => s.id == 999) = none ∧
    updateSale initDB 999
        { total_amount := 0, total_discount := none, final_amount := 0,
          items := none }
      = (initDB, .error 400) ∧
    (Except.error 400 : Except Nat Nat) ≠ .error 404 := by
  refine ⟨rfl, rfl, by simp⟩

/-- C7 witness: editing sale id 999 (absent from `initDB`) with a well-formed
body answers 404 and leaves the store untouched. -/
theorem sale_edit_unknown_id_not_found_witness :
    updateSale initDB 999
        { total_amount := 0, total_discount := none, final_amount := 0,
          items := some [] }
      = (initDB, .error 404) :=
  sale_edit_unknown_id_not_found initDB 999 _ [] rfl rfl

/-- The concrete edit request the C2 witness sends. -/
def c2req : UpdateSaleReq :=
  { total_amount := 4300, total_discount := some 0, final_amount := 4300,
    items := some [{ product_id := 1, category_name := "Sarees",
                     sale_price := 2000, quantity := 2,
                     item_final_price := 4000 },
                   { product_id := 3, category_name := "Shirts",
                     sale_price := 300, quantity := 1,
                     item_final_price := 300 }] }

/-- C2 witness: editing the sale created by `c1req` (35 units of product 1)
down to 2 units of product 1 plus 1 unit of product 3 nets product 1 a +33
change and product 3 a -1 change: quantities go [-4, 20, 24, 32] to
[29, 20, 23, 32]. -/
theorem sale_edit_nets_old_new_delta_witness :
    (updateSale (createSale initDB "2025-01-01 10:00:00" c1req).1 1 c2req).1.products.map
      (fun p => p.quantity) = [29, 20, 23, 32] := by
  have h0 : updateSale (createSale initDB "2025-01-01 10:00:00" c1req).1 1 c2req
      = ((updateSale (createSale initDB "2025-01-01 10:00:00" c1req).1 1 c2req).1,
         .ok 1) := by decide
  have h := sale_edit_nets_old_new_delta
    (createSale initDB "2025-01-01 10:00:00" c1req).1 1 c2req _ _ h0
  rw [h]
  decide

/-- C10 witness: the same kind of concrete edit leaves the stored sale's type,
number, customer name, mobile, payment mode, remarks and date exactly as
created and changes only the totals. -/
theorem sale_edit_touches_only_totals_witness :
    (updateSale (createSale initDB "2025-01-01 10:00:00" c1req).1 1 c2req).1.sales.map
      (fun s => (s.type_, s.number, s.customer_name, s.date, s.final_amount))
      = [("bill", "BILL-0001", "Walk In Customer", "2025-01-01 10:00:00", 4300)] := by
  have h0 : updateSale (createSale initDB "2025-01-01 10:00:00" c1req).1 1 c2req
      = ((updateSale (createSale initDB "2025-01-01 10:00:00" c1req).1 1 c2req).1,
         .ok 1) := by decide
  have h := sale_edit_touches_only_totals
    (createSale initDB "2025-01-01 10:00:00" c1req).1 1 c2req _ _ h0
  rw [h]
  decide

/-- C3: deleting an existing sale removes its row and all of its items and
adds back to every product the full quantity the sale's stored items had
deducted.  (The delete handler is absent from src/ - see `deleteSale` - so
this settles the claim against the spec-modelled operation.) -/
theorem sale_deletion_restores_stock (db : DB) (id : Nat) (s0 : SaleRow)
    (hs : db.sales.find? (fun s => s.id == id) = some s0) :
    deleteSale db id =
      ({ db with
          sales := db.sales.filter (fun s => !(s.id == id)),
          sale_items := db.sale_items.filter (fun i => !(i.sale_id == id)),
          products := db.products.map (fun p =>
            { p with quantity := p.quantity
                + rowsQty (db.sale_items.filter (fun i => i.sale_id == id)) p.id }) },
        .ok ()) := by
  unfold deleteSale
  rw [hs]
  simp only [foldl_incrementQuantity]
  rfl

/-- C3 witness: deleting the sale created by `c1req` removes the sale and its
item and restores product 1's quantity from -4 back to 31, leaving the exact
initial product quantities. -/
theorem sale_deletion_restores_stock_witness :
    (deleteSale (createSale initDB "2025-01-01 10:00:00" c1req).1 1).1.sales = [] ∧
    (deleteSale (createSale initDB "2025-01-01 10:00:00" c1req).1 1).1.sale_items = [] ∧
    (deleteSale (createSale initDB "2025-01-01 10:00:00" c1req).1 1).1.products
      = initDB.products := by
  have h := sale_deletion_restores_stock
    (createSale initDB "2025-01-01 10:00:00" c1req).1 1
    (newSaleRow initDB "2025-01-01 10:00:00" c1req) (by decide)
  rw [(show deleteSale (createSale initDB "2025-01-01 10:00:00" c1req).1 1
        = ((deleteSale (createSale initDB "2025-01-01 10:00:00" c1req).1 1).1, .ok ())
      from h ▸ rfl)]
  refine ⟨?_, ?_, ?_⟩ <;> rw [congrArg Prod.fst h] <;> decide

/-- Membership in the GET /api/sales result: the ORDER BY does not change the
row set, so a sale is returned exactly when it is stored and passes every
active WHERE condition. -/
theorem mem_getSales (q : SalesQuery) (db : DB) (s : SaleRow) :
    s ∈ getSales q db ↔
      s ∈ db.sales ∧ dateFilterOk q s = true ∧ typeFilterOk q s = true
        ∧ searchFilterOk q s = true := by
  unfold getSales
  rw [List.mem_mergeSort, List.mem_filter]
  simp [Bool.and_eq_true, and_assoc]

/-- C6 (amended): GET /api/sales returns exactly the stored sales satisfying
the conjunction of all active filters - when an exact-date parameter is given
every returned sale's date matches it, and the name/mobile-substring search
combines conjunctively with the active date filter rather than independently
of it (a sale matching the search but not the date filter is omitted). -/
theorem sales_listing_filters_conjunctively (q : SalesQuery) (db : DB) (s : SaleRow) :
    s ∈ getSales q db ↔
      s ∈ db.sales ∧ dateFilterOk q s = true ∧ typeFilterOk q s = true
        ∧ searchFilterOk q s = true :=
  mem_getSales q db s

/-- C6 counterexample: with the exact-date filter "2025-01-02" active and the
search string "Walk", the sale stored on "2025-01-01" for "Walk In Customer"
contains the search substring in its customer name yet is not in the result -
the search is not independent of the active date filter (the handler ANDs the
two conditions). -/
theorem sales_listing_search_not_independent_counterexample :
    ∃ s ∈ (createSale initDB "2025-01-01 10:00:00" c1req).1.sales,
      likeContains s.customer_name "Walk" = true ∧
      s ∉ getSales
        { date := some "2025-01-02", startDate := none, endDate := none,
          type_ := none, search := some "Walk" }
        (createSale initDB "2025-01-01 10:00:00" c1req).1 := by
  refine ⟨newSaleRow initDB "2025-01-01 10:00:00" c1req, by decide, by decide, ?_⟩
  rw [mem_getSales]
  decide

/-- C5 counterexample: the server stores the client-sent totals verbatim, so a
creation request with total 100, discount 0 and final amount 150 - exactly
what the NewSale page's `handleFinalAmountChange` produces when 150 is typed
as To-Pay against a 100 total, since it clamps the discount at zero - is
accepted and stored with `final_amount ≠ total_amount - total_discount`. -/
theorem stored_totals_invariant_counterexample :
    handleFinalAmountChange 100 150 = (150, 0) ∧
    (createSale initDB "2025-01-01 10:00:00"
        { type_ := some "bill", customer_name := none, mobile := none,
          payment_mode := none, remarks := none, total_amount := 100,
          total_discount := some 0, final_amount := 150,
          items := some [{ product_id := 3, category_name := "Shirts",
                           sale_price := 300, quantity := 1,
                           item_final_price := 300 }] }).2.isOk = true ∧
    ¬ (∀ s ∈ (createSale initDB "2025-01-01 10:00:00"
        { type_ := some "bill", customer_name := none, mobile := none,
          payment_mode := none, remarks := none, total_amount := 100,
          total_discount := some 0, final_amount := 150,
          items := some [{ product_id := 3, category_name := "Shirts",
                           sale_price := 300, quantity := 1,
                           item_final_price := 300 }] }).1.sales,
        s.final_amount = s.total_amount - s.total_discount) := by
  refine ⟨rfl, by decide, by decide⟩

/-- C5 (amended): the server stores the request's three totals verbatim and
never recomputes them, so `final_amount = total_amount - total_discount` holds
for every stored sale exactly when it held before the creation and the
creating request's own fields satisfy it; it is not enforced server-side. -/
theorem stored_totals_invariant_iff_request_consistent
    (db : DB) (date : String) (req : CreateSaleReq) (db2 : DB) (resp : SaleResp)
    (h : createSale db date req = (db2, .ok resp))
    (hprev : ∀ s ∈ db.sales, s.final_amount = s.total_amount - s.total_discount)
    (hreq : req.final_amount = req.total_amount - req.total_discount.getD 0) :
    ∀ s ∈ db2.sales, s.final_amount = s.total_amount - s.total_discount := by
  obtain ⟨ht, ⟨l, hi, hl⟩, hn⟩ := createSale_ok_conditions db date req db2 resp h
  rw [createSale_ok_shape db date req l ht hi hl hn] at h
  injection h with h1 h2
  rw [← h1]
  intro s hsmem
  rcases List.mem_append.mp hsmem with hold | hnew
  · exact hprev s hold
  · rw [List.mem_singleton.mp hnew]
    exact hreq

/-- The consistent creation request of the C5 witness: total 300, discount 50,
final 250. -/
def c5req : CreateSaleReq :=
  { type_ := some "bill", customer_name := none, mobile := none,
    payment_mode := none, remarks := none, total_amount := 300,
    total_discount := some 50, final_amount := 250,
    items := some [{ product_id := 3, category_name := "Shirts",
                     sale_price := 300, quantity := 1,
                     item_final_price := 300 }] }

/-- C5 witness: the consistent request `c5req` is accepted from the
empty-sales initial store and every stored sale satisfies the totals
invariant. -/
theorem stored_totals_invariant_iff_request_consistent_witness :
    ((createSale initDB "2025-01-01 10:00:00" c5req).1.sales.all
      (fun s => s.final_amount == s.total_amount - s.total_discount)) = true := by
  have h0 : createSale initDB "2025-01-01 10:00:00" c5req
      = ((createSale initDB "2025-01-01 10:00:00" c5req).1,
         .ok { id := 1, number := "BILL-0001", date := "2025-01-01 10:00:00" }) := by
    decide
  have h := stored_totals_invariant_iff_request_consistent initDB
    "2025-01-01 10:00:00" c5req _ _ h0 (by decide) (by decide)
  rw [List.all_eq_true]
  intro s hs
  exact beq_iff_eq.mpr (h s hs)

theorem char_ofNat_digit (d : Nat) (hd : d < 10) :
    (Char.ofNat (48 + d)).isDigit = true := by
  interval_cases d <;> decide

theorem char_ofNat_digit_toNat (d : Nat) (hd : d < 10) :
    (Char.ofNat (48 + d)).toNat = 48 + d := by
  interval_cases d <;> decide

theorem char_ofNat_digit_ne_dash (d : Nat) (hd : d < 10) :
    Char.ofNat (48 + d) ≠ '-' := by
  interval_cases d <;> decide

theorem natDigitsCore_isDigit (n : Nat) : ∀ fuel acc, n < fuel →
    (∀ c ∈ acc, c.isDigit = true) →
    ∀ c ∈ natDigitsCore fuel n acc, c.isDigit = true := by
  induction n using Nat.strong_induction_on with
  | _ n ih =>
    intro fuel acc hfuel hacc c hc
    match fuel with
    | 0 => omega
    | f + 1 =>
      unfold natDigitsCore at hc
      by_cases h10 : n < 10
      · rw [if_pos h10] at hc
        rcases List.mem_cons.mp hc with rfl | hmem
        · exact char_ofNat_digit n h10
        · exact hacc c hmem
      · rw [if_neg h10] at hc
        have hdiv : n / 10 < n := Nat.div_lt_self (by omega) (by omega)
        refine ih (n / 10) hdiv f _ (by omega) ?_ c hc
        intro c2 hc2
        rcases List.mem_cons.mp hc2 with rfl | hmem
        · exact char_ofNat_digit (n % 10) (Nat.mod_lt _ (by omega))
        · exact hacc c2 hmem

theorem natDigitsCore_ne_dash (n : Nat) : ∀ fuel acc, n < fuel →
    ('-' ∉ acc) → '-' ∉ natDigitsCore fuel n acc := by
  intro fuel acc hfuel hacc hmem
  have := natDigitsCore_isDigit n fuel acc hfuel
  by_cases hall : ∀ c ∈ acc, c.isDigit = true
  · have hd := this hall '-' hmem
    simp at hd
  · -- acc may hold non-digits; argue directly by induction instead
    clear this hall
    induction n using Nat.strong_induction_on generalizing fuel acc with
    | _ n ih =>
      match fuel with
      | 0 => omega
      | f + 1 =>
        unfold natDigitsCore at hmem
        by_cases h10 : n < 10
        · rw [if_pos h10] at hmem
          rcases List.mem_cons.mp hmem with he | hm
          · exact char_ofNat_digit_ne_dash n h10 he.symm
          · exact hacc hm
        · rw [if_neg h10] at hmem
          have hdiv : n / 10 < n := Nat.div_lt_self (by omega) (by omega)
          refine ih (n / 10) hdiv f (Char.ofNat (48 + n % 10) :: acc) (by omega) ?_ hmem
          intro hm2
          rcases List.mem_cons.mp hm2 with he | hm
          · exact char_ofNat_digit_ne_dash (n % 10) (Nat.mod_lt _ (by omega)) he.symm
          · exact hacc hm

theorem natDigitsCore_ne_nil (n : Nat) : ∀ fuel acc, n < fuel →
    natDigitsCore fuel n acc ≠ [] := by
  induction n using Nat.strong_induction_on with
  | _ n ih =>
    intro fuel acc hfuel
    match fuel with
    | 0 => omega
    | f + 1 =>
      unfold natDigitsCore
      by_cases h10 : n < 10
      · rw [if_pos h10]
        exact List.cons_ne_nil _ _
      · rw [if_neg h10]
        have hdiv : n / 10 < n := Nat.div_lt_self (by omega) (by omega)
        exact ih (n / 10) hdiv f _ (by omega)

theorem natDigitsCore_foldl (n : Nat) : ∀ fuel acc a, n < fuel →
    (natDigitsCore fuel n acc).foldl (fun x c => x * 10 + (c.toNat - 48)) a
      = acc.foldl (fun x c => x * 10 + (c.toNat - 48)) (a * 10 ^ numDigits n + n) := by
  induction n using Nat.strong_induction_on with
  | _ n ih =>
    intro fuel acc a hfuel
    match fuel with
    | 0 => omega
    | f + 1 =>
      unfold natDigitsCore
      by_cases h10 : n < 10
      · rw [if_pos h10, List.foldl_cons, char_ofNat_digit_toNat n h10]
        have hnd : numDigits n = 1 := by
          unfold numDigits
          rw [dif_pos h10]
        rw [hnd]
        have h48 : 48 + n - 48 = n := by omega
        rw [h48, pow_one]
      · rw [if_neg h10]
        have hdiv : n / 10 < n := Nat.div_lt_self (by omega) (by omega)
        rw [ih (n / 10) hdiv f _ a (by omega), List.foldl_cons,
          char_ofNat_digit_toNat (n % 10) (Nat.mod_lt _ (by omega))]
        have hnd : numDigits n = numDigits (n / 10) + 1 := by
          conv_lhs => unfold numDigits
          rw [dif_neg h10]
        rw [hnd]
        congr 1
        have h48 : 48 + n % 10 - 48 = n % 10 := by omega
        rw [h48, pow_succ]
        generalize 10 ^ numDigits (n / 10) = P
        have hmod := Nat.div_add_mod n 10
        have hexp : a * (P * 10) = a * P * 10 := by ring
        rw [hexp]
        generalize a * P = Q
        omega

theorem foldl_replicate_zeros (k : Nat) :
    (List.replicate k '0').foldl (fun x c => x * 10 + (c.toNat - 48)) 0 = 0 := by
  induction k with
  | zero => rfl
  | succ k ih =>
    rw [List.replicate_succ, List.foldl_cons]
    simpa using ih

/-- `parseInt` recovers `n` from its zero-padded decimal rendering. -/
theorem parseIntLeading_pad_natDigits (n : Nat) :
    parseIntLeading (padStart4 (natDigits n)) = some n := by
  unfold parseIntLeading padStart4 natDigits
  have hdig : ∀ c ∈ List.replicate (4 - (natDigitsCore (n + 1) n []).length) '0'
      ++ natDigitsCore (n + 1) n [], c.isDigit = true := by
    intro c hc
    rcases List.mem_append.mp hc with hc | hc
    · rw [List.eq_of_mem_replicate hc]
      decide
    · exact natDigitsCore_isDigit n (n + 1) [] (by omega) (by simp) c hc
  rw [List.takeWhile_eq_self_iff.mpr hdig]
  have hne : (List.replicate (4 - (natDigitsCore (n + 1) n []).length) '0'
      ++ natDigitsCore (n + 1) n []).isEmpty = false := by
    rw [List.isEmpty_eq_false]
    intro hcontra
    exact natDigitsCore_ne_nil n (n + 1) [] (by omega)
      (List.append_eq_nil.mp hcontra).2
  simp only [hne, Bool.false_eq_true, if_false, List.foldl_append, foldl_replicate_zeros,
    Option.some.injEq]
  rw [natDigitsCore_foldl n (n + 1) [] 0 (by omega)]
  simp

theorem splitOnChar_cons (c x : Char) (xs : List Char) :
    splitOnChar c (x :: xs) =
      match splitOnChar c xs with
      | [] => [[x]]
      | h :: t => if x == c then [] :: h :: t else (x :: h) :: t := rfl

theorem splitOnChar_ne_nil (c : Char) (l : List Char) : splitOnChar c l ≠ [] := by
  induction l with
  | nil => exact List.cons_ne_nil _ _
  | cons x xs ih =>
    rw [splitOnChar_cons]
    cases hsp : splitOnChar c xs with
    | nil => simp
    | cons h t =>
      by_cases hx : (x == c) = true <;> simp [hx]

theorem splitOnChar_not_mem (c : Char) (l : List Char) (h : c ∉ l) :
    splitOnChar c l = [l] := by
  induction l with
  | nil => rfl
  | cons x xs ih =>
    have hx : (x == c) = false := by
      rw [beq_eq_false_iff_ne]
      intro he
      exact h (he ▸ List.mem_cons_self x xs)
    have hxs : c ∉ xs := fun hm => h (List.mem_cons_of_mem x hm)
    rw [splitOnChar_cons, ih hxs]
    simp [hx]

theorem splitOnChar_append (c : Char) (l1 l2 : List Char) (h : c ∉ l1) :
    splitOnChar c (l1 ++ c :: l2) = l1 :: splitOnChar c l2 := by
  induction l1 with
  | nil =>
    rw [List.nil_append, splitOnChar_cons]
    cases hsp : splitOnChar c l2 with
    | nil => exact absurd hsp (splitOnChar_ne_nil c l2)
    | cons hd t => simp
  | cons x xs ih =>
    have hx : (x == c) = false := by
      rw [beq_eq_false_iff_ne]
      intro he
      exact h (he ▸ List.mem_cons_self x xs)
    have hxs : c ∉ xs := fun hm => h (List.mem_cons_of_mem x hm)
    show splitOnChar c (x :: (xs ++ c :: l2)) = (x :: xs) :: splitOnChar c l2
    rw [splitOnChar_cons, ih hxs]
    simp [hx]

/-- The generated sale number round-trips: parsing `PREFIX-dddd` built from `n`
gives back `n`. -/
theorem numericPart_mkSaleNumber (pfx : String) (h : '-' ∉ pfx.data) (n : Nat) :
    numericPart (mkSaleNumber pfx (some n)) = some n := by
  unfold numericPart mkSaleNumber
  have hnd : '-' ∉ padStart4 (natDigits n) := by
    intro hmem
    rcases List.mem_append.mp hmem with hm | hm
    · have := List.eq_of_mem_replicate hm
      simp at this
    · exact natDigitsCore_ne_dash n (n + 1) [] (by omega) (by simp) hm
  show (match splitOnChar '-' (pfx.data ++ '-' :: padStart4 (natDigits n)) with
    | _ :: p :: _ => parseIntLeading p
    | _ => none) = some n
  rw [splitOnChar_append '-' pfx.data (padStart4 (natDigits n)) h,
    splitOnChar_not_mem '-' (padStart4 (natDigits n)) hnd]
  exact parseIntLeading_pad_natDigits n

theorem pairwise_lt_le_getLast (ns : List Nat) (hp : ns.Pairwise (· < ·)) (m : Nat)
    (hl : ns.getLast? = some m) : ∀ x ∈ ns, x ≤ m := by
  induction ns with
  | nil => simp at hl
  | cons a t ih =>
    intro x hx
    cases t with
    | nil =>
      simp at hl hx
      omega
    | cons b t2 =>
      rw [List.getLast?_cons_cons] at hl
      rcases List.mem_cons.mp hx with rfl | hx2
      · have hm : m ∈ b :: t2 := List.mem_of_mem_getLast? hl
        have := (List.pairwise_cons.mp hp).1 m hm
        omega
      · exact ih (List.pairwise_cons.mp hp).2 hl x hx2

/-- The per-type numeric parts of the stored sale numbers, in insertion
(id) order. -/
def numsOfType (t : String) (sales : List SaleRow) : List (Option Nat) :=
  (sales.filter (fun s => s.type_ == t)).map (fun s => numericPart s.number)

/-- The C4 invariant: per type, every stored number parses and the parsed
values strictly increase in insertion order; and no number string is stored
twice. -/
def saleNumbersOk (sales : List SaleRow) : Prop :=
  (∀ t : String, ∃ ns : List Nat,
      numsOfType t sales = ns.map some ∧ ns.Pairwise (· < ·)) ∧
  (sales.map (fun s => s.number)).Nodup

theorem saleNumbersOk_append (db : DB) (sale : SaleRow)
    (h : saleNumbersOk db.sales)
    (hnum : sale.number = genSaleNumber db sale.type_)
    (hfresh : sale.number ∉ db.sales.map (fun s => s.number)) :
    saleNumbersOk (db.sales ++ [sale]) := by
  have hpfxdash : '-' ∉ (if sale.type_ == "bill" then "BILL" else "EST").data := by
    by_cases hb : (sale.type_ == "bill") = true
    · rw [if_pos hb]
      decide
    · rw [if_neg hb]
      decide
  constructor
  · intro t
    obtain ⟨ns, hmap, hpw⟩ := h.1 t
    unfold numsOfType at hmap ⊢
    rw [List.filter_append, List.map_append]
    by_cases hty : (sale.type_ == t) = true
    · -- the new sale is of type t: its parsed number extends the chain
      have htt : sale.type_ = t := by simpa using hty
      subst htt
      have hfs : List.filter (fun s => s.type_ == sale.type_) [sale] = [sale] := by
        simp [List.filter_cons]
      rw [hfs, List.map_cons, List.map_nil, hnum]
      unfold genSaleNumber
      cases hgl : (db.sales.filter (fun s => s.type_ == sale.type_)).getLast? with
      | none =>
        -- no earlier sale of this type: ns = [] and the number parses to 1
        rw [List.getLast?_eq_none_iff] at hgl
        rw [hgl] at hmap
        simp only [List.map_nil] at hmap
        refine ⟨[1], ?_, by simp⟩
        rw [hgl]
        simp only [List.map_nil, List.nil_append, List.map_cons]
        exact congrArg (fun x => [x]) (numericPart_mkSaleNumber _ hpfxdash 1)
      | some ls =>
        -- earlier sales of this type: the last parses to m, the new one to m+1
        have hlast : Option.map (fun s => numericPart s.number)
            (db.sales.filter (fun s => s.type_ == sale.type_)).getLast?
              = Option.map some ns.getLast? := by
          rw [← List.getLast?_map, hmap, List.getLast?_map]
        rw [hgl] at hlast
        cases hnl : ns.getLast? with
        | none =>
          rw [hnl] at hlast
          simp at hlast
        | some m =>
          rw [hnl] at hlast
          simp only [Option.map_some'] at hlast
          have hlm : numericPart ls.number = some m := by
            injection hlast with hv
          refine ⟨ns ++ [m + 1], ?_, ?_⟩
          · dsimp only
            rw [hlm]
            simp only [Option.map_some']
            rw [hmap, List.map_append, List.map_cons, List.map_nil]
            exact congrArg (fun x => List.map some ns ++ [x])
              (numericPart_mkSaleNumber _ hpfxdash (m + 1))
          · rw [List.pairwise_append]
            refine ⟨hpw, by simp, ?_⟩
            intro x hx y hy
            rw [List.mem_singleton.mp hy]
            have := pairwise_lt_le_getLast ns hpw m hnl x hx
            omega
    · -- a different type: the per-type list is unchanged
      have hty2 : (sale.type_ == t) = false := by
        rwa [Bool.not_eq_true] at hty
      rw [List.filter_cons]
      simp only [hty2, Bool.false_eq_true, if_false, List.filter_nil, List.map_nil,
        List.append_nil]
      exact ⟨ns, hmap, hpw⟩
  · rw [List.map_append, List.nodup_append]
    refine ⟨h.2, by simp, ?_⟩
    intro a ha hb
    simp only [List.map_cons, List.map_nil, List.mem_singleton] at hb
    subst hb
    exact hfresh ha

/-- A validation-passing creation whose generated number collides with a
stored number violates the UNIQUE constraint: the transaction rolls back and
the handler answers 500, leaving the store unchanged. -/
theorem createSale_dup (db : DB) (date : String) (req : CreateSaleReq)
    (hv : (!strTruthy req.type_ || req.items.isNone || (req.items.getD []).isEmpty) = false)
    (hm : genSaleNumber db (req.type_.getD "") ∈ db.sales.map (fun s => s.number)) :
    createSale db date req = (db, .error 500) := by
  unfold createSale
  rw [hv]
  simp only [Bool.false_eq_true, if_false]
  simp [hm]

/-- Every sale creation - accepted or rejected - preserves the numbering
invariant. -/
theorem createSale_preserves_saleNumbersOk (db : DB) (date : String)
    (req : CreateSaleReq) (h : saleNumbersOk db.sales) :
    saleNumbersOk (createSale db date req).1.sales := by
  by_cases hv : (!strTruthy req.type_ || req.items.isNone || (req.items.getD []).isEmpty) = true
  · unfold createSale
    rw [if_pos hv]
    exact h
  · rw [Bool.not_eq_true] at hv
    have hv2 := hv
    rw [Bool.or_eq_false_iff, Bool.or_eq_false_iff] at hv2
    obtain ⟨⟨h1, h2⟩, h3⟩ := hv2
    by_cases hm : genSaleNumber db (req.type_.getD "") ∈ db.sales.map (fun s => s.number)
    · rw [createSale_dup db date req hv hm]
      exact h
    · cases hio : req.items with
      | none =>
        rw [hio] at h2
        simp at h2
      | some l =>
        have hl : l ≠ [] := by
          rw [hio] at h3
          simpa using h3
        rw [createSale_ok_shape db date req l (by simpa using h1) hio hl hm]
        exact saleNumbersOk_append db (newSaleRow db date req) h rfl hm

/-- A sequence of sale creations: each element carries the handler's
`getCurrentDateIST()` value and the request body, applied in order. -/
def createMany (db : DB) (reqs : List (String × CreateSaleReq)) : DB :=
  reqs.foldl (fun d pr => (createSale d pr.1 pr.2).1) db

theorem createMany_preserves_saleNumbersOk (reqs : List (String × CreateSaleReq)) :
    ∀ db : DB, saleNumbersOk db.sales → saleNumbersOk (createMany db reqs).sales := by
  induction reqs with
  | nil => exact fun db h => h
  | cons pr rest ih =>
    intro db h
    exact ih (createSale db pr.1 pr.2).1
      (createSale_preserves_saleNumbersOk db pr.1 pr.2 h)

/-- C4: starting from the freshly initialised store, after any sequence of
sale creations the stored numbers of every type parse and are strictly
increasing in creation order - each new bill number exceeds every earlier
bill number, likewise for estimates - and no number string is ever stored
twice (a rejected creation, including one whose generated number would
collide with a stored one, stores nothing). -/
theorem sale_numbers_increase_and_never_repeat (reqs : List (String × CreateSaleReq)) :
    (∀ t : String, ∃ ns : List Nat,
        numsOfType t (createMany initDB reqs).sales = ns.map some
          ∧ ns.Pairwise (· < ·)) ∧
    ((createMany initDB reqs).sales.map (fun s => s.number)).Nodup :=
  createMany_preserves_saleNumbersOk reqs initDB
    ⟨fun _ => ⟨[], rfl, List.Pairwise.nil⟩, List.nodup_nil⟩

theorem getOrCreateCategory_products (db : DB) (n : String) :
    (getOrCreateCategory db n).1.products = db.products := by
  unfold getOrCreateCategory
  cases db.categories.find? (fun c => c.name == n) <;> rfl

theorem getOrCreateCategory_manufacturers (db : DB) (n : String) :
    (getOrCreateCategory db n).1.manufacturers = db.manufacturers := by
  unfold getOrCreateCategory
  cases db.categories.find? (fun c => c.name == n) <;> rfl

theorem getOrCreateCategory_name_mem (db : DB) (n : String) :
    n ∈ (getOrCreateCategory db n).1.categories.map (fun c => c.name) := by
  unfold getOrCreateCategory
  cases hf : db.categories.find? (fun c => c.name == n) with
  | none =>
    simp only [List.map_append]
    exact List.mem_append_right _ (by simp)
  | some c =>
    have hc := List.find?_some hf
    have hm := List.mem_of_find?_eq_some hf
    simp only at hc ⊢
    rw [beq_iff_eq] at hc
    exact List.mem_map.mpr ⟨c, hm, hc⟩

theorem getOrCreateCategory_name_persists (db : DB) (n x : String)
    (h : x ∈ db.categories.map (fun c => c.name)) :
    x ∈ (getOrCreateCategory db n).1.categories.map (fun c => c.name) := by
  unfold getOrCreateCategory
  cases db.categories.find? (fun c => c.name == n) with
  | none =>
    simp only [List.map_append]
    exact List.mem_append_left _ h
  | some c => exact h

theorem getOrCreateManufacturer_products (db : DB) (n : String) :
    (getOrCreateManufacturer db n).1.products = db.products := by
  unfold getOrCreateManufacturer
  cases db.manufacturers.find? (fun m => m.name == n) <;> rfl

theorem getOrCreateManufacturer_categories (db : DB) (n : String) :
    (getOrCreateManufacturer db n).1.categories = db.categories := by
  unfold getOrCreateManufacturer
  cases db.manufacturers.find? (fun m => m.name == n) <;> rfl

theorem getOrCreateManufacturer_name_mem (db : DB) (n : String) :
    n ∈ (getOrCreateManufacturer db n).1.manufacturers.map (fun m => m.name) := by
  unfold getOrCreateManufacturer
  cases hf : db.manufacturers.find? (fun m => m.name == n) with
  | none =>
    simp only [List.map_append]
    exact List.mem_append_right _ (by simp)
  | some m =>
    have hc := List.find?_some hf
    have hm := List.mem_of_find?_eq_some hf
    simp only at hc ⊢
    rw [beq_iff_eq] at hc
    exact List.mem_map.mpr ⟨m, hm, hc⟩

theorem getOrCreateManufacturer_name_persists (db : DB) (n x : String)
    (h : x ∈ db.manufacturers.map (fun m => m.name)) :
    x ∈ (getOrCreateManufacturer db n).1.manufacturers.map (fun m => m.name) := by
  unfold getOrCreateManufacturer
  cases db.manufacturers.find? (fun m => m.name == n) with
  | none =>
    simp only [List.map_append]
    exact List.mem_append_left _ h
  | some m => exact h

/-- A row succeeds exactly when all six required cells are present (better-
sqlite3 throws on binding the first missing one, whatever the store holds). -/
theorem processRow_snd (db : DB) (r : ImportRow) :
    (processRow db r).2 = rowComplete r := by
  unfold processRow rowComplete
  cases r.category with
  | none => simp
  | some cname =>
    cases r.manufacturer with
    | none => simp
    | some mname =>
      cases r.barcode with
      | none => simp
      | some bc =>
        cases r.quantity with
        | none => simp
        | some q =>
          cases r.cost_price with
          | none => simp
          | some cp =>
            cases r.sale_price with
            | none => simp
            | some sp =>
              dsimp only
              cases hfp : List.find? (fun p => p.barcode == bc)
                  (getOrCreateManufacturer (getOrCreateCategory db cname).1 mname).1.products with
              | none => simp [hfp]
              | some p0 => simp [hfp]

theorem processRow_barcodes_persist (db : DB) (r : ImportRow) (b : String)
    (h : b ∈ db.products.map (fun p => p.barcode)) :
    b ∈ (processRow db r).1.products.map (fun p => p.barcode) := by
  unfold processRow
  cases r.category with
  | none => exact h
  | some cname =>
    have e1 := getOrCreateCategory_products db cname
    cases r.manufacturer with
    | none =>
      dsimp only
      rw [e1]
      exact h
    | some mname =>
      have e2 := getOrCreateManufacturer_products (getOrCreateCategory db cname).1 mname
      cases r.barcode with
      | none =>
        dsimp only
        rw [e2, e1]
        exact h
      | some bc =>
        cases r.quantity with
        | none =>
          dsimp only
          rw [e2, e1]
          exact h
        | some q =>
          cases r.cost_price with
          | none =>
            dsimp only
            rw [e2, e1]
            exact h
          | some cp =>
            cases r.sale_price with
            | none =>
              dsimp only
              rw [e2, e1]
              exact h
            | some sp =>
              dsimp only
              rw [e2, e1]
              cases hfp : List.find? (fun p => p.barcode == bc) db.products with
              | none =>
                simp only [hfp, List.map_append]
                exact List.mem_append_left _ h
              | some p0 =>
                simp only [hfp, List.map_map]
                obtain ⟨p, hp, hpb⟩ := List.mem_map.mp h
                refine List.mem_map.mpr ⟨p, hp, ?_⟩
                by_cases hid : (p.id == p0.id) = true <;>
                  simp [Function.comp, hid, hpb]

theorem processRow_categories_persist (db : DB) (r : ImportRow) (x : String)
    (h : x ∈ db.categories.map (fun c => c.name)) :
    x ∈ (processRow db r).1.categories.map (fun c => c.name) := by
  unfold processRow
  cases r.category with
  | none => exact h
  | some cname =>
    have e1 := getOrCreateCategory_name_persists db cname x h
    cases r.manufacturer with
    | none => exact e1
    | some mname =>
      have e2 := getOrCreateManufacturer_categories (getOrCreateCategory db cname).1 mname
      cases r.barcode with
      | none =>
        dsimp only
        rw [e2]
        exact e1
      | some bc =>
        cases r.quantity with
        | none =>
          dsimp only
          rw [e2]
          exact e1
        | some q =>
          cases r.cost_price with
          | none =>
            dsimp only
            rw [e2]
            exact e1
          | some cp =>
            cases r.sale_price with
            | none =>
              dsimp only
              rw [e2]
              exact e1
            | some sp =>
              dsimp only
              cases hfp : List.find? (fun p => p.barcode == bc)
                  (getOrCreateManufacturer (getOrCreateCategory db cname).1 mname).1.products with
              | none =>
                simp only [hfp]
                rw [e2]
                exact e1
              | some p0 =>
                simp only [hfp]
                rw [e2]
                exact e1

theorem processRow_manufacturers_persist (db : DB) (r : ImportRow) (x : String)
    (h : x ∈ db.manufacturers.map (fun m => m.name)) :
    x ∈ (processRow db r).1.manufacturers.map (fun m => m.name) := by
  unfold processRow
  cases r.category with
  | none => exact h
  | some cname =>
    have e1 : x ∈ (getOrCreateCategory db cname).1.manufacturers.map (fun m => m.name) := by
      rw [getOrCreateCategory_manufacturers]
      exact h
    cases r.manufacturer with
    | none => exact e1
    | some mname =>
      have e2 := getOrCreateManufacturer_name_persists
        (getOrCreateCategory db cname).1 mname x e1
      cases r.barcode with
      | none => exact e2
      | some bc =>
        cases r.quantity with
        | none => exact e2
        | some q =>
          cases r.cost_price with
          | none => exact e2
          | some cp =>
            cases r.sale_price with
            | none => exact e2
            | some sp =>
              dsimp only
              cases hfp : List.find? (fun p => p.barcode == bc)
                  (getOrCreateManufacturer (getOrCreateCategory db cname).1 mname).1.products with
              | none =>
                simp only [hfp]
                exact e2
              | some p0 =>
                simp only [hfp]
                exact e2

theorem processRow_establishes (db : DB) (r : ImportRow) (h : rowComplete r = true) :
    (r.barcode.getD "") ∈ (processRow db r).1.products.map (fun p => p.barcode) ∧
    (r.category.getD "") ∈ (processRow db r).1.categories.map (fun c => c.name) ∧
    (r.manufacturer.getD "") ∈ (processRow db r).1.manufacturers.map (fun m => m.name) := by
  unfold rowComplete at h
  simp only [Bool.and_eq_true, Option.isSome_iff_exists] at h
  obtain ⟨⟨⟨⟨⟨⟨bc, hbc⟩, cname, hc⟩, mname, hm⟩, q, hq⟩, cp, hcp⟩, sp, hsp⟩ := h
  unfold processRow
  rw [hbc, hc, hm, hq, hcp, hsp]
  dsimp only [Option.getD_some]
  have ecat : cname ∈ (getOrCreateManufacturer
      (getOrCreateCategory db cname).1 mname).1.categories.map (fun c => c.name) := by
    rw [getOrCreateManufacturer_categories]
    exact getOrCreateCategory_name_mem db cname
  have eman : mname ∈ (getOrCreateManufacturer
      (getOrCreateCategory db cname).1 mname).1.manufacturers.map (fun m => m.name) :=
    getOrCreateManufacturer_name_mem (getOrCreateCategory db cname).1 mname
  cases hfp : List.find? (fun p => p.barcode == bc)
      (getOrCreateManufacturer (getOrCreateCategory db cname).1 mname).1.products with
  | none =>
    simp only [hfp]
    refine ⟨?_, ecat, eman⟩
    rw [List.map_append]
    exact List.mem_append_right _ (by simp)
  | some p0 =>
    simp only [hfp]
    refine ⟨?_, ecat, eman⟩
    have hp0b : p0.barcode = bc := by
      have := List.find?_some hfp
      simpa using this
    have hp0m := List.mem_of_find?_eq_some hfp
    rw [List.map_map]
    refine List.mem_map.mpr ⟨p0, hp0m, ?_⟩
    by_cases hid : (p0.id == p0.id) = true <;>
      simp [Function.comp, hid, hp0b]

theorem processRow_nodup (db : DB) (r : ImportRow)
    (h : (db.products.map (fun p => p.barcode)).Nodup) :
    ((processRow db r).1.products.map (fun p => p.barcode)).Nodup := by
  unfold processRow
  cases r.category with
  | none => exact h
  | some cname =>
    have e1 := getOrCreateCategory_products db cname
    cases r.manufacturer with
    | none =>
      dsimp only
      rw [e1]
      exact h
    | some mname =>
      have e2 := getOrCreateManufacturer_products (getOrCreateCategory db cname).1 mname
      cases r.barcode with
      | none =>
        dsimp only
        rw [e2, e1]
        exact h
      | some bc =>
        cases r.quantity with
        | none =>
          dsimp only
          rw [e2, e1]
          exact h
        | some q =>
          cases r.cost_price with
          | none =>
            dsimp only
            rw [e2, e1]
            exact h
          | some cp =>
            cases r.sale_price with
            | none =>
              dsimp only
              rw [e2, e1]
              exact h
            | some sp =>
              dsimp only
              rw [e2, e1]
              cases hfp : List.find? (fun p => p.barcode == bc) db.products with
              | none =>
                simp only [hfp, List.map_append]
                rw [List.nodup_append]
                refine ⟨h, by simp, ?_⟩
                intro a ha hb
                simp only [List.map_cons, List.map_nil, List.mem_singleton] at hb
                subst hb
                obtain ⟨p, hp, hpb⟩ := List.mem_map.mp ha
                have := List.find?_eq_none.mp hfp p hp
                rw [hpb] at this
                simp at this
              | some p0 =>
                simp only [hfp, List.map_map]
                have : (List.map ((fun p => p.barcode) ∘ fun p =>
                    if (p.id == p0.id) = true then
                      { id := p.id, barcode := p.barcode,
                        category_id := (getOrCreateCategory db cname).2,
                        manufacturer_id := (getOrCreateManufacturer
                          (getOrCreateCategory db cname).1 mname).2,
                        quantity := q, cost_price := cp, sale_price := sp }
                    else p) db.products)
                    = db.products.map (fun p => p.barcode) := by
                  apply List.map_congr_left
                  intro p _
                  by_cases hid : (p.id == p0.id) = true <;>
                    simp [Function.comp, hid]
                rw [this]
                exact h

/-- The import fold: final store, imported count, and 1-based error rows. -/
theorem importRows_spec (rows : List ImportRow) :
    ∀ db idx imported errors,
      importRows db rows idx imported errors
        = (rows.foldl (fun d r => (processRow d r).1) db,
           imported + (rows.filter (fun r => rowComplete r)).length,
           errors ++ ((List.enumFrom idx rows).filter
             (fun pr => !rowComplete pr.2)).map (fun pr => pr.1 + 1)) := by
  induction rows with
  | nil =>
    intro db idx imported errors
    simp [importRows]
  | cons r rest ih =>
    intro db idx imported errors
    rw [show importRows db (r :: rest) idx imported errors
        = if (processRow db r).2 = true then
            importRows (processRow db r).1 rest (idx + 1) (imported + 1) errors
          else importRows (processRow db r).1 rest (idx + 1) imported
            (errors ++ [idx + 1]) from rfl]
    rw [processRow_snd db r]
    by_cases hc : rowComplete r = true
    · rw [hc]
      simp only [if_true]
      rw [ih]
      refine Prod.ext rfl (Prod.ext ?_ ?_)
      · simp only [List.filter_cons, hc, if_true, List.length_cons]
        omega
      · simp only [List.enumFrom_cons, List.filter_cons, hc, Bool.not_true,
          Bool.false_eq_true, if_false]
    · have hc2 : rowComplete r = false := by
        rwa [Bool.not_eq_true] at hc
      rw [hc2]
      simp only [Bool.false_eq_true, if_false]
      rw [ih]
      refine Prod.ext rfl (Prod.ext ?_ ?_)
      · simp only [List.filter_cons, hc2, Bool.false_eq_true, if_false]
      · simp only [List.enumFrom_cons, List.filter_cons, hc2, Bool.not_false,
          if_true, List.map_cons, List.append_assoc, List.singleton_append]

theorem foldl_processRow_barcodes_persist (rows : List ImportRow) :
    ∀ (db : DB) (b : String), b ∈ db.products.map (fun p => p.barcode) →
      b ∈ (rows.foldl (fun d r => (processRow d r).1) db).products.map
        (fun p => p.barcode) := by
  induction rows with
  | nil => exact fun db b h => h
  | cons r rest ih =>
    intro db b h
    exact ih (processRow db r).1 b (processRow_barcodes_persist db r b h)

theorem foldl_processRow_categories_persist (rows : List ImportRow) :
    ∀ (db : DB) (x : String), x ∈ db.categories.map (fun c => c.name) →
      x ∈ (rows.foldl (fun d r => (processRow d r).1) db).categories.map
        (fun c => c.name) := by
  induction rows with
  | nil => exact fun db x h => h
  | cons r rest ih =>
    intro db x h
    exact ih (processRow db r).1 x (processRow_categories_persist db r x h)

theorem foldl_processRow_manufacturers_persist (rows : List ImportRow) :
    ∀ (db : DB) (x : String), x ∈ db.manufacturers.map (fun m => m.name) →
      x ∈ (rows.foldl (fun d r => (processRow d r).1) db).manufacturers.map
        (fun m => m.name) := by
  induction rows with
  | nil => exact fun db x h => h
  | cons r rest ih =>
    intro db x h
    exact ih (processRow db r).1 x (processRow_manufacturers_persist db r x h)

theorem foldl_processRow_nodup (rows : List ImportRow) :
    ∀ db : DB, (db.products.map (fun p => p.barcode)).Nodup →
      ((rows.foldl (fun d r => (processRow d r).1) db).products.map
        (fun p => p.barcode)).Nodup := by
  induction rows with
  | nil => exact fun db h => h
  | cons r rest ih =>
    intro db h
    exact ih (processRow db r).1 (processRow_nodup db r h)

theorem foldl_processRow_establishes (rows : List ImportRow) :
    ∀ (db : DB) (r : ImportRow), r ∈ rows → rowComplete r = true →
      (r.barcode.getD "") ∈ (rows.foldl (fun d r => (processRow d r).1) db).products.map
          (fun p => p.barcode) ∧
      (r.category.getD "") ∈ (rows.foldl (fun d r => (processRow d r).1) db).categories.map
          (fun c => c.name) ∧
      (r.manufacturer.getD "") ∈ (rows.foldl
          (fun d r => (processRow d r).1) db).manufacturers.map (fun m => m.name) := by
  induction rows with
  | nil =>
    intro db r hr
    simp at hr
  | cons r0 rest ih =>
    intro db r hr hcomp
    rcases List.mem_cons.mp hr with rfl | hr2
    · obtain ⟨h1, h2, h3⟩ := processRow_establishes db r hcomp
      rw [List.foldl_cons]
      exact ⟨foldl_processRow_barcodes_persist rest _ _ h1,
        foldl_processRow_categories_persist rest _ _ h2,
        foldl_processRow_manufacturers_persist rest _ _ h3⟩
    · rw [List.foldl_cons]
      exact ih (processRow db r0).1 r hr2 hcomp

/-- C9: an accepted Excel import (non-empty sheet, required columns present on
the first row) processes every row: the reported imported count is the number
of complete rows and the error report lists exactly the 1-based indices of the
failing (incomplete) rows - later rows are still processed, the batch is never
aborted; every complete row ends with a product stored under its barcode and
with its category and manufacturer names present in the lookup tables (created
if missing); and the upsert never duplicates a barcode. -/
theorem import_upserts_by_barcode_and_reports_per_row
    (db : DB) (rows : List ImportRow) (r0 : ImportRow) (rest : List ImportRow)
    (hrows : rows = r0 :: rest) (h0 : rowComplete r0 = true) :
    (importProducts db rows).2
        = .ok ((rows.filter (fun r => rowComplete r)).length,
               ((List.enumFrom 0 rows).filter
                 (fun pr => !rowComplete pr.2)).map (fun pr => pr.1 + 1)) ∧
    (∀ r ∈ rows, rowComplete r = true →
        (r.barcode.getD "") ∈ (importProducts db rows).1.products.map
            (fun p => p.barcode) ∧
        (r.category.getD "") ∈ (importProducts db rows).1.categories.map
            (fun c => c.name) ∧
        (r.manufacturer.getD "") ∈ (importProducts db rows).1.manufacturers.map
            (fun m => m.name)) ∧
    ((db.products.map (fun p => p.barcode)).Nodup →
        ((importProducts db rows).1.products.map (fun p => p.barcode)).Nodup) := by
  subst hrows
  have hnot : (!rowComplete r0) = false := by
    rw [h0]
    rfl
  have hstep : importProducts db (r0 :: rest)
      = (if !rowComplete r0 then (db, .error 400)
         else ((importRows db (r0 :: rest) 0 0 []).1,
           .ok ((importRows db (r0 :: rest) 0 0 []).2.1,
                (importRows db (r0 :: rest) 0 0 []).2.2))) := rfl
  rw [hstep, hnot]
  simp only [Bool.false_eq_true, if_false]
  rw [importRows_spec (r0 :: rest) db 0 0 []]
  refine ⟨?_, ?_, ?_⟩
  · simp
  · intro r hr hcomp
    exact foldl_processRow_establishes (r0 :: rest) db r hr hcomp
  · intro hnd
    exact foldl_processRow_nodup (r0 :: rest) db hnd

/-- The concrete import the C9 witness runs: three rows; the first complete
(new barcode, new category), the second missing its manufacturer cell (fails,
is reported as row 2, but its category "NewCat2" is still created - the per-row
catch is inside the transaction), the third complete (existing barcode,
updated). -/
def c9row1 : ImportRow :=
  { barcode := some "11111111", category := some "NewCat",
    manufacturer := some "XYZ Clothing", quantity := some 5,
    cost_price := some 10, sale_price := some 20 }

/-- The remaining rows of the C9 witness import. -/
def c9rest : List ImportRow :=
  [{ barcode := some "22222222", category := some "NewCat2",
     manufacturer := none, quantity := some 7,
     cost_price := some 1, sale_price := some 2 },
   { barcode := some "12345678", category := some "Sarees",
     manufacturer := some "XYZ Clothing", quantity := some 9,
     cost_price := some 1, sale_price := some 2 }]

/-- The full row list of the C9 witness import. -/
def c9rows : List ImportRow :=
  c9row1 :: c9rest

/-- C9 witness: the import is accepted, reports 2 imported rows and row 2 as
the only failure, keeps processing after the failure (the third row updates
product "12345678" to quantity 9), and stores "11111111" as a new product with
category "NewCat" created. -/
theorem import_upserts_by_barcode_and_reports_per_row_witness :
    (importProducts initDB c9rows).2 = .ok (2, [2]) ∧
    "11111111" ∈ (importProducts initDB c9rows).1.products.map (fun p => p.barcode) ∧
    "NewCat" ∈ (importProducts initDB c9rows).1.categories.map (fun c => c.name) ∧
    ((importProducts initDB c9rows).1.products.map (fun p => (p.barcode, p.quantity)))
      = [("12345678", 9), ("87654321", 20), ("10101010", 24), ("10000000", 32),
         ("11111111", 5)] := by
  obtain ⟨hresp, hest, hnd⟩ := import_upserts_by_barcode_and_reports_per_row
    initDB c9rows c9row1 c9rest rfl (by decide)
  refine ⟨?_, ?_, ?_, by decide⟩
  · rw [hresp]
    decide
  · exact (hest c9row1 (by decide) (by decide)).1
  · exact (hest c9row1 (by decide) (by decide)).2.1
